import Mathlib

/-!
Shallow embedding of the 24/7 task-scheduler core of the repository:
`src/daemon/task_queue.py` (SQLite-backed task store),
`src/daemon/rate_limiter.py` (dual-domain rate limiter) and
`src/daemon/daemon.py` (scheduler loop / outcome reconciliation).

Timestamps and Python floats are modelled as rationals (`ℚ`); SQLite rows as
a `List Task` in rowid order; Python dicts as association lists with the
`.get(key, default)` lookup the source uses.
-/

namespace GeminiDaemon

/-- `TaskStatus` enum of `task_queue.py`. -/
inductive TaskStatus where
  | PENDING
  | PROCESSING
  | COMPLETED
  | FAILED
  | DEAD_LETTER
deriving DecidableEq, Repr

/-- One row of the `tasks` table (`task_queue.py` schema).  `payload`,
`result` and `error_message` are opaque to the store and kept as strings. -/
structure Task where
  id : Nat
  priority : Int
  model_pref : String
  payload : String
  status : TaskStatus
  result : Option String
  created_at : ℚ
  execute_after : ℚ
  attempts : Nat
  error_message : Option String
deriving DecidableEq, Repr

/-- The `WHERE status = 'PENDING' AND execute_after <= now` filter of
`claim_task`. -/
def eligible (now : ℚ) (t : Task) : Bool :=
  decide (t.status = TaskStatus.PENDING) && decide (t.execute_after ≤ now)

/-- Row `a` sorts strictly before row `b` under
`ORDER BY priority ASC, created_at ASC`. -/
def betterRow (a b : Task) : Bool :=
  decide (a.priority < b.priority) ||
    (decide (a.priority = b.priority) && decide (a.created_at < b.created_at))

/-- Fold step realising `ORDER BY ... LIMIT 1`: keep the best row seen so
far, preferring the earlier row on full ties (scan order). -/
def pickBest (best : Option Task) (t : Task) : Option Task :=
  match best with
  | none => some t
  | some b => if betterRow t b then some t else some b

/-- The `SELECT ... ORDER BY priority ASC, created_at ASC LIMIT 1` of
`claim_task`: first eligible row in sort order, if any. -/
def selectCandidate (now : ℚ) (rows : List Task) : Option Task :=
  (rows.filter (eligible now)).foldl pickBest none

/-- `UPDATE tasks SET ... WHERE id = ?` : rewrite the row(s) with the given
id, leave every other row unchanged. -/
def updateById (tid : Nat) (f : Task → Task) (rows : List Task) : List Task :=
  rows.map (fun r => if r.id = tid then f r else r)

/-- The second half of `claim_task`:
`UPDATE tasks SET status = 'PROCESSING' WHERE id = ?` (note: no status
guard in the source). -/
def claimMark (tid : Nat) (rows : List Task) : List Task :=
  updateById tid (fun r => { r with status := TaskStatus.PROCESSING }) rows

/-- `TaskQueue.claim_task`, executed as one unit: SELECT the candidate,
mark it `PROCESSING`, return it. -/
def claimTask (now : ℚ) (rows : List Task) : Option Task × List Task :=
  match selectCandidate now rows with
  | none => (none, rows)
  | some t => (some t, claimMark t.id rows)

/-- Two callers each run `claim_task`'s SELECT and UPDATE as separate
steps against the shared store (the source issues them as two statements;
Python's sqlite3 does not open a transaction for the SELECT, so another
connection may interleave).  Schedule modelled here:
A.SELECT, B.SELECT, A.UPDATE, B.UPDATE — both SELECTs read the initial
store. Returns (A's result, B's result) and the final store. -/
def twoCallerClaim (now : ℚ) (s0 : List Task) :
    (Option Task × Option Task) × List Task :=
  let resA := selectCandidate now s0
  let resB := selectCandidate now s0
  let s1 := match resA with | some t => claimMark t.id s0 | none => s0
  let s2 := match resB with | some t => claimMark t.id s1 | none => s1
  ((resA, resB), s2)

/-- `TaskQueue.complete_task`:
`UPDATE tasks SET status = 'COMPLETED', result = ? WHERE id = ?`
(no status guard in the source). -/
def completeTask (tid : Nat) (result : String) (rows : List Task) : List Task :=
  updateById tid (fun r =>
    { r with status := TaskStatus.COMPLETED, result := some result }) rows

/-- `SELECT ... WHERE id = ?` with `fetchone()`: first row with that id. -/
def findTask (tid : Nat) (rows : List Task) : Option Task :=
  rows.find? (fun r => decide (r.id = tid))

/-- The row rewrite performed by `fail_task`'s UPDATE statement, given the
`attempts` value previously fetched from the target row. -/
def failUpdate (now : ℚ) (errMsg : String) (maxAttempts : Nat) (fetched : Nat)
    (r : Task) : Task :=
  { r with
    status := if fetched ≥ maxAttempts then TaskStatus.DEAD_LETTER
              else TaskStatus.PENDING,
    attempts := r.attempts + 1,
    error_message := some errMsg,
    execute_after := if fetched ≥ maxAttempts then 0
                     else now + 2 ^ fetched * 5 }

/-- `TaskQueue.fail_task`: fetch `attempts`; missing id returns silently;
`attempts >= max_attempts` dead-letters with `execute_after = 0`, otherwise
back to `PENDING` with backoff `now + 2 ** attempts * 5`; the UPDATE also
increments `attempts` and records the error message. -/
def failTask (now : ℚ) (tid : Nat) (errMsg : String) (maxAttempts : Nat)
    (rows : List Task) : List Task :=
  match findTask tid rows with
  | none => rows
  | some row => updateById tid (failUpdate now errMsg maxAttempts row.attempts) rows

/-- `TaskQueue.release_task`:
`UPDATE tasks SET status = 'PENDING', execute_after = now + delay WHERE id = ?`
(no status guard in the source; `attempts` untouched). -/
def releaseTask (now : ℚ) (tid : Nat) (delaySeconds : ℚ) (rows : List Task) :
    List Task :=
  updateById tid (fun r =>
    { r with status := TaskStatus.PENDING, execute_after := now + delaySeconds }) rows

/-- `TaskQueue.reset_stuck_tasks`: every `PROCESSING` row created before
`now - timeout` goes back to `PENDING` with `attempts` incremented. -/
def resetStuckTasks (now : ℚ) (timeoutSeconds : ℚ) (rows : List Task) : List Task :=
  rows.map (fun r =>
    if r.status = TaskStatus.PROCESSING ∧ r.created_at < now - timeoutSeconds
    then { r with status := TaskStatus.PENDING, attempts := r.attempts + 1 }
    else r)

/-! ### Scheduler loop (`daemon.py`) -/

/-- Python's substring test `needle in hay`. -/
def containsSub : List Char → List Char → Bool
  | needle, [] => needle.isEmpty
  | needle, c :: rest => needle.isPrefixOf (c :: rest) || containsSub needle rest

/-- The capacity-error classifier of `GeminiDaemon._process_task`:
`"429" in error_msg or "exhausted" in error_msg.lower()`. -/
def isCapacityError (errMsg : String) : Bool :=
  containsSub "429".toList errMsg.toList ||
    containsSub "exhausted".toList (errMsg.toList.map Char.toLower)

/-- Observable outcome of dispatching one claimed task: `acquire_slot`
returned no account (with `get_wait_time`'s answer), the handler
succeeded, or the handler raised with the given message. -/
inductive Outcome where
  | noAccount (waitTime : ℚ)
  | handlerSuccess (result : String)
  | handlerFailure (errMsg : String)

/-- The store reconciliation performed by `GeminiDaemon._process_task` for
a claimed task: no account ⇒ `release_task(id, max(10, wait_time))`;
success ⇒ `complete_task`; failure ⇒ `release_task(id, 60)` when the
message matches the capacity pattern, else `fail_task(id, msg)` with the
default `max_attempts = 3`. -/
def processTask (now : ℚ) (tid : Nat) (outcome : Outcome) (rows : List Task) :
    List Task :=
  match outcome with
  | Outcome.noAccount waitTime => releaseTask now tid (max 10 waitTime) rows
  | Outcome.handlerSuccess result => completeTask tid result rows
  | Outcome.handlerFailure errMsg =>
      if isCapacityError errMsg then releaseTask now tid 60 rows
      else failTask now tid errMsg 3 rows

/-! ### Rate limiter (`rate_limiter.py`) -/

/-- The six `ModelTier` values. -/
def tierValues : List String :=
  ["flash-lite", "flash-3", "pro-3", "pro-25", "image-pro", "image-flash"]

/-- Per-account slice of the persisted state: the two per-tier dicts. -/
structure AccountState where
  daily_usage : List (String × Nat)
  last_request_time : List (String × ℚ)
deriving DecidableEq, Repr

/-- The persisted rate-limiter state: calendar date plus per-account data. -/
structure LimiterState where
  date : String
  accounts : List (Nat × AccountState)
deriving DecidableEq, Repr

/-- Python's `dict.get(key, default)`. -/
def lookupD {β : Type} (m : List (String × β)) (k : String) (d : β) : β :=
  match m.find? (fun p => decide (p.1 = k)) with
  | some p => p.2
  | none => d

/-- Python's `dict[key] = value`. -/
def setKey {β : Type} (k : String) (v : β) : List (String × β) → List (String × β)
  | [] => [(k, v)]
  | p :: rest => if p.1 = k then (k, v) :: rest else p :: setKey k v rest

/-- A freshly reset account: zero usage and zero last-request time for
every tier (`RateLimiter._reset_state`). -/
def freshAccount : AccountState :=
  { daily_usage := tierValues.map (fun t => (t, 0)),
    last_request_time := tierValues.map (fun t => (t, 0)) }

/-- `RateLimiter._reset_state`: today's date, all counters zero. -/
def resetState (today : String) (accountIds : List Nat) : LimiterState :=
  { date := today, accounts := accountIds.map (fun a => (a, freshAccount)) }

/-- `RateLimiter._load_state` on a well-formed (or absent) state file:
load it, and if the stored date differs from today, reset and save.
Returns the in-memory state and the state file after the call. -/
def loadState (file : Option LimiterState) (today : String) (accountIds : List Nat) :
    LimiterState × Option LimiterState :=
  match file with
  | some s =>
      if s.date = today then (s, some s)
      else (resetState today accountIds, some (resetState today accountIds))
  | none => (resetState today accountIds, some (resetState today accountIds))

/-- `self.state["accounts"][str(acc)]`.  A missing key raises `KeyError`
in Python; the embedding totalises the lookup with the fresh-account state
and agrees with the source on every well-formed state (all theorems below
use states that contain all their account ids). -/
def accState (st : LimiterState) (a : Nat) : AccountState :=
  match st.accounts.find? (fun p => decide (p.1 = a)) with
  | some p => p.2
  | none => freshAccount

/-- One entry of `MODEL_LIMITS`: daily quota (`-1` = unlimited) and RPM. -/
structure Limits where
  daily : Int
  rpm : ℚ
deriving DecidableEq, Repr

/-- The `MODEL_ID_TO_TIER` table. -/
def MODEL_ID_TO_TIER : List (String × String) :=
  [("gemini-2.5-flash-lite", "flash-lite"),
   ("gemini-3-flash-preview", "flash-3"),
   ("gemini-2.5-flash", "flash-3"),
   ("gemini-3-pro-preview", "pro-3"),
   ("gemini-2.5-pro", "pro-25"),
   ("gemini-3-pro-image-preview", "image-pro"),
   ("gemini-2.5-flash-image", "image-flash")]

/-- `RateLimiter._get_tier`: model id ↦ its tier; a tier value maps to
itself; anything else defaults to `flash-lite`. -/
def getTier (modelPref : String) : String :=
  match MODEL_ID_TO_TIER.find? (fun p => decide (p.1 = modelPref)) with
  | some p => p.2
  | none => if tierValues.contains modelPref then modelPref else "flash-lite"

/-- The `MODEL_LIMITS` table, as a function of the tier value. -/
def modelLimits (tier : String) : Limits :=
  if tier = "flash-lite" then { daily := 1500, rpm := 60 }
  else if tier = "flash-3" then { daily := -1, rpm := 60 }
  else if tier = "pro-3" then { daily := 100, rpm := 30 }
  else if tier = "pro-25" then { daily := 100, rpm := 60 }
  else if tier = "image-pro" then { daily := 1000, rpm := 10 }
  else { daily := 1000, rpm := 60 }

/-- Python's `int()` applied to a real number: truncation toward zero
(`Int.tdiv` is T-division; a rational's denominator is positive). -/
def pyInt (q : ℚ) : Int := q.num.tdiv q.den

/-- `last_request_time.get(tier, 0)` for one account. -/
def lastReq (st : LimiterState) (tier : String) (a : Nat) : ℚ :=
  lookupD (accState st a).last_request_time tier 0

/-- `daily_usage.get(tier, 0)` for one account. -/
def dailyUsage (st : LimiterState) (tier : String) (a : Nat) : Nat :=
  lookupD (accState st a).daily_usage tier 0

/-- `sorted(self.accounts, key=lambda acc: last_request_time.get(tier, 0))`:
Python's `sorted` is a stable ascending sort, which is exactly
`List.insertionSort` with the non-strict key comparison. -/
def preferredOrder (st : LimiterState) (tier : String) (accountIds : List Nat) :
    List Nat :=
  List.insertionSort (fun a b => lastReq st tier a ≤ lastReq st tier b) accountIds

/-- The two in-loop gates of `acquire_slot`, as the source writes them:
skip unless (`daily <= 0` or `usage < int(daily * safety)`) and
`now - last_req >= 60.0 / (rpm * safety)`. -/
def passesGates (st : LimiterState) (tier : String) (limits : Limits)
    (safety : ℚ) (now : ℚ) (a : Nat) : Bool :=
  (if limits.daily > 0 then
      decide ((dailyUsage st tier a : Int) < pyInt ((limits.daily : ℚ) * safety))
    else true)
  && decide (60 / (limits.rpm * safety) ≤ now - lastReq st tier a)

/-- The account-selection loop of `acquire_slot` over an already-loaded
state: first account in preferred order passing both gates. -/
def acquireFromState (st : LimiterState) (accountIds : List Nat) (safety : ℚ)
    (limits : Limits) (tier : String) (now : ℚ) : Option Nat :=
  (preferredOrder st tier accountIds).find? (passesGates st tier limits safety now)

/-- `RateLimiter.acquire_slot` for a resolved tier and its limits:
re-load persisted state first (multi-process sync), then select. Returns
the chosen account (if any) and the state file after the call. -/
def acquireSlot (file : Option LimiterState) (today : String)
    (accountIds : List Nat) (safety : ℚ) (limits : Limits) (tier : String)
    (now : ℚ) : Option Nat × Option LimiterState :=
  let ls := loadState file today accountIds
  (acquireFromState ls.1 accountIds safety limits tier now, ls.2)

/-- `RateLimiter.acquire_slot` on a model preference string: resolve the
tier, look up `MODEL_LIMITS`, then select. -/
def acquireSlotPref (file : Option LimiterState) (today : String)
    (accountIds : List Nat) (safety : ℚ) (modelPref : String) (now : ℚ) :
    Option Nat × Option LimiterState :=
  acquireSlot file today accountIds safety (modelLimits (getTier modelPref))
    (getTier modelPref) now

/-- `RateLimiter.record_usage`: bump the daily counter and stamp
`last_request_time = now` for that account and tier. -/
def recordUsage (st : LimiterState) (now : ℚ) (accountId : Nat)
    (modelPref : String) : LimiterState :=
  let tier := getTier modelPref
  { st with accounts := st.accounts.map (fun p =>
      if p.1 = accountId then
        (p.1, { daily_usage := setKey tier (lookupD p.2.daily_usage tier 0 + 1) p.2.daily_usage,
                last_request_time := setKey tier now p.2.last_request_time })
      else p) }

/-- `RateLimiter.get_remaining_quota`: re-load state, then report
`-1` (unlimited) or `max(0, daily_limit - used)` per account.  Returns the
report and the state file after the call. -/
def getRemainingQuota (file : Option LimiterState) (today : String)
    (accountIds : List Nat) (modelPref : String) :
    List (Nat × Int) × Option LimiterState :=
  let ls := loadState file today accountIds
  let tier := getTier modelPref
  let dailyLimit := (modelLimits tier).daily
  (accountIds.map (fun a =>
      let used := dailyUsage ls.1 tier a
      (a, if dailyLimit < 0 then -1 else max 0 (dailyLimit - used))),
   ls.2)

/-- One tier's entry in `get_stats`' report (the source additionally
rounds `percent_used` for display; the exact rational is kept here). -/
structure TierStats where
  used : Nat
  remaining : Int
  limit : Int
  percent_used : ℚ
deriving DecidableEq, Repr

/-- The per-tier computation inside `RateLimiter.get_stats`. -/
def tierStatsFor (st : LimiterState) (a : Nat) (tier : String) : TierStats :=
  let limits := modelLimits tier
  let used := dailyUsage st tier a
  if limits.daily < 0 then
    { used := used, remaining := -1, limit := limits.daily, percent_used := 0 }
  else
    { used := used, remaining := max 0 (limits.daily - used), limit := limits.daily,
      percent_used := if limits.daily > 0 then (used : ℚ) / (limits.daily : ℚ) * 100 else 0 }

/-- `RateLimiter.get_stats`: re-load state, then report date and per
account, per tier usage.  Returns the report and the state file after
the call. -/
def getStats (file : Option LimiterState) (today : String) (accountIds : List Nat) :
    (String × List (Nat × List (String × TierStats))) × Option LimiterState :=
  let ls := loadState file today accountIds
  ((ls.1.date,
    accountIds.map (fun a => (a, tierValues.map (fun t => (t, tierStatsFor ls.1 a t))))),
   ls.2)

/-- The per-account wait inside `get_wait_time`:
`max(0, min_gap - (now - last_req))`. -/
def waitOf (st : LimiterState) (tier : String) (limits : Limits) (safety : ℚ)
    (now : ℚ) (a : Nat) : ℚ :=
  max 0 (60 / (limits.rpm * safety) - (now - lastReq st tier a))

/-- The daily-exhaustion skip inside `get_wait_time` (note: the raw daily
limit, not the safety-scaled one `acquire_slot` uses). -/
def dailyExhausted (st : LimiterState) (tier : String) (limits : Limits)
    (a : Nat) : Bool :=
  decide (limits.daily > 0) && decide ((dailyUsage st tier a : Int) ≥ limits.daily)

/-- One iteration of the `min_wait` accumulation loop of `get_wait_time`;
`none` stands for `float('inf')`. -/
def minWaitStep (st : LimiterState) (tier : String) (limits : Limits)
    (safety : ℚ) (now : ℚ) (mw : Option ℚ) (a : Nat) : Option ℚ :=
  if dailyExhausted st tier limits a then mw
  else some (match mw with
    | none => waitOf st tier limits safety now a
    | some w => min w (waitOf st tier limits safety now a))

/-- The `min_wait` accumulation loop of `get_wait_time`. -/
def minWaitFold (st : LimiterState) (tier : String) (limits : Limits)
    (safety : ℚ) (now : ℚ) (accountIds : List Nat) : Option ℚ :=
  accountIds.foldl (minWaitStep st tier limits safety now) none

/-- `RateLimiter.get_wait_time` for a resolved tier: 0 when
`can_request_now` (which calls `acquire_slot`, hence loads state),
otherwise the minimum wait over non-exhausted accounts, or 3600 when
every account is daily-exhausted. -/
def getWaitTime (file : Option LimiterState) (today : String)
    (accountIds : List Nat) (safety : ℚ) (limits : Limits) (tier : String)
    (now : ℚ) : ℚ × Option LimiterState :=
  let ls := loadState file today accountIds
  if (acquireFromState ls.1 accountIds safety limits tier now).isSome then
    (0, ls.2)
  else
    (match minWaitFold ls.1 tier limits safety now accountIds with
     | some w => w
     | none => 3600, ls.2)

/-! ### Spec-side gate definitions (for the refinement statement of C6) -/

/-- The daily gate exactly as the spec words it: a `-1` quota always
passes (and is never compared against the threshold); otherwise the
account passes while `daily_usage < ⌊daily_quota · safety_factor⌋`. -/
def dailyGateClaim (st : LimiterState) (tier : String) (limits : Limits)
    (safety : ℚ) (a : Nat) : Bool :=
  if limits.daily = -1 then true
  else decide ((dailyUsage st tier a : Int) < ⌊(limits.daily : ℚ) * safety⌋)

/-- The rate gate exactly as the spec words it: pass when
`now - last_request_time ≥ 60 / (rpm_limit · safety_factor)`. -/
def rateGateClaim (st : LimiterState) (tier : String) (limits : Limits)
    (safety : ℚ) (now : ℚ) (a : Nat) : Bool :=
  decide (60 / (limits.rpm * safety) ≤ now - lastReq st tier a)

/-! ### Concrete limiter states used in scenarios and witnesses -/

/-- A persisted state dated 2025-01-01 with non-zero usage on account 1. -/
def staleState : LimiterState :=
  { date := "2025-01-01",
    accounts := [(1, { daily_usage := [("pro-3", 5)],
                       last_request_time := [("pro-3", 50)] }),
                 (2, freshAccount)] }

/-- A state where account 1 has exhausted a daily quota of 1 and account 2
made its last request at time 95. -/
def waitDemoState : LimiterState :=
  { date := "d",
    accounts := [(1, { daily_usage := [("flash-lite", 1)],
                       last_request_time := [("flash-lite", 0)] }),
                 (2, { daily_usage := [("flash-lite", 0)],
                       last_request_time := [("flash-lite", 95)] })] }

/-! ### Concrete rows used in scenarios and witnesses -/

/-- A fresh `PENDING` task row, as `add_task` inserts it. -/
def demoTask (i : Nat) (prio : Int) (created : ℚ) : Task :=
  { id := i, priority := prio, model_pref := "flash-lite", payload := "p",
    status := TaskStatus.PENDING, result := none, created_at := created,
    execute_after := 0, attempts := 0, error_message := none }

/-- A task row that has reached the terminal `COMPLETED` status. -/
def doneTask : Task := { demoTask 0 50 0 with status := TaskStatus.COMPLETED }

/-- A task row that has reached the terminal `DEAD_LETTER` status. -/
def deadTask : Task := { demoTask 1 50 0 with status := TaskStatus.DEAD_LETTER }

/-! ### Helper lemmas about the task store -/

/-- The non-strict version of the `(priority, created_at)` sort order. -/
def leRow (a b : Task) : Prop :=
  a.priority < b.priority ∨ (a.priority = b.priority ∧ a.created_at ≤ b.created_at)

theorem leRow_refl (a : Task) : leRow a a := Or.inr ⟨rfl, le_refl _⟩

theorem leRow_trans {a b c : Task} (h1 : leRow a b) (h2 : leRow b c) : leRow a c := by
  rcases h1 with h1 | ⟨e1, l1⟩ <;> rcases h2 with h2 | ⟨e2, l2⟩
  · exact Or.inl (lt_trans h1 h2)
  · exact Or.inl (e2 ▸ h1)
  · exact Or.inl (e1 ▸ h2)
  · exact Or.inr ⟨e1.trans e2, le_trans l1 l2⟩

theorem le_of_betterRow_false {a b : Task} (h : betterRow a b = false) : leRow b a := by
  simp only [betterRow, Bool.or_eq_false_iff, Bool.and_eq_false_iff,
    decide_eq_false_iff_not] at h
  obtain ⟨h1, h2⟩ := h
  rcases (not_lt.mp h1).lt_or_eq with hlt | heq
  · exact Or.inl hlt
  · refine Or.inr ⟨heq, ?_⟩
    rcases h2 with h2 | h2
    · exact absurd heq.symm h2
    · exact not_lt.mp h2

theorem le_of_betterRow_true {a b : Task} (h : betterRow a b = true) : leRow a b := by
  simp only [betterRow, Bool.or_eq_true, Bool.and_eq_true, decide_eq_true_eq] at h
  rcases h with h | ⟨he, hl⟩
  · exact Or.inl h
  · exact Or.inr ⟨he, le_of_lt hl⟩

theorem foldl_pickBest_isSome : ∀ (l : List Task) (a : Task),
    ∃ r, l.foldl pickBest (some a) = some r
  | [], a => ⟨a, rfl⟩
  | x :: l, a => by
      rw [List.foldl_cons]
      by_cases hb : betterRow x a = true
      · rw [show pickBest (some a) x = some x by simp [pickBest, hb]]
        exact foldl_pickBest_isSome l x
      · have hb' : betterRow x a = false := by simpa using hb
        rw [show pickBest (some a) x = some a by simp [pickBest, hb']]
        exact foldl_pickBest_isSome l a

theorem foldl_pickBest_spec : ∀ (l : List Task) (a r : Task),
    l.foldl pickBest (some a) = some r →
      (r = a ∨ r ∈ l) ∧ leRow r a ∧ ∀ t ∈ l, leRow r t
  | [], a, r, h => by
      simp only [List.foldl_nil, Option.some.injEq] at h
      subst h
      exact ⟨Or.inl rfl, leRow_refl _, by simp⟩
  | x :: l, a, r, h => by
      rw [List.foldl_cons] at h
      by_cases hb : betterRow x a = true
      · rw [show pickBest (some a) x = some x by simp [pickBest, hb]] at h
        obtain ⟨hmem, hrx, hall⟩ := foldl_pickBest_spec l x r h
        have hxa : leRow x a := le_of_betterRow_true hb
        refine ⟨?_, leRow_trans hrx hxa, ?_⟩
        · rcases hmem with rfl | hm
          · exact Or.inr (List.mem_cons_self _ _)
          · exact Or.inr (List.mem_cons_of_mem _ hm)
        · intro t ht
          rcases List.mem_cons.mp ht with rfl | htl
          · exact hrx
          · exact hall t htl
      · have hb' : betterRow x a = false := by simpa using hb
        rw [show pickBest (some a) x = some a by simp [pickBest, hb']] at h
        obtain ⟨hmem, hra, hall⟩ := foldl_pickBest_spec l a r h
        have hax : leRow a x := le_of_betterRow_false hb'
        refine ⟨?_, hra, ?_⟩
        · rcases hmem with rfl | hm
          · exact Or.inl rfl
          · exact Or.inr (List.mem_cons_of_mem _ hm)
        · intro t ht
          rcases List.mem_cons.mp ht with rfl | htl
          · exact leRow_trans hra hax
          · exact hall t htl

/-- What a returned candidate means: it is an eligible row of the store and
minimal in the `(priority, created_at)` order among all eligible rows. -/
theorem selectCandidate_spec {now : ℚ} {rows : List Task} {r : Task}
    (h : selectCandidate now rows = some r) :
    r ∈ rows ∧ eligible now r = true ∧
      ∀ t ∈ rows, eligible now t = true → leRow r t := by
  unfold selectCandidate at h
  cases hf : rows.filter (eligible now) with
  | nil => rw [hf] at h; simp at h
  | cons x l =>
      rw [hf, List.foldl_cons,
        show pickBest none x = some x from rfl] at h
      obtain ⟨hmem, hrx, hall⟩ := foldl_pickBest_spec l x r h
      have hrfilter : r ∈ rows.filter (eligible now) := by
        rw [hf]
        rcases hmem with rfl | hm
        · exact List.mem_cons_self _ _
        · exact List.mem_cons_of_mem _ hm
      have hrmem := List.mem_filter.mp hrfilter
      refine ⟨hrmem.1, hrmem.2, ?_⟩
      intro t ht hel
      have htf : t ∈ rows.filter (eligible now) := List.mem_filter.mpr ⟨ht, hel⟩
      rw [hf] at htf
      rcases List.mem_cons.mp htf with rfl | htl
      · exact hrx
      · exact hall t htl

/-- `claim_task` returns `None` exactly when no row is eligible. -/
theorem selectCandidate_eq_none_iff {now : ℚ} {rows : List Task} :
    selectCandidate now rows = none ↔ ∀ t ∈ rows, eligible now t = false := by
  constructor
  · intro h t ht
    by_contra hc
    have hel : eligible now t = true := by
      cases he : eligible now t
      · exact absurd he hc
      · rfl
    have htf : t ∈ rows.filter (eligible now) := List.mem_filter.mpr ⟨ht, hel⟩
    unfold selectCandidate at h
    cases hf : rows.filter (eligible now) with
    | nil => rw [hf] at htf; exact absurd htf (List.not_mem_nil t)
    | cons x l =>
        rw [hf, List.foldl_cons, show pickBest none x = some x from rfl] at h
        obtain ⟨r, hr⟩ := foldl_pickBest_isSome l x
        rw [hr] at h
        exact Option.noConfusion h
  · intro h
    unfold selectCandidate
    have : rows.filter (eligible now) = [] := by
      rw [List.filter_eq_nil_iff]
      intro t ht
      rw [h t ht]
      exact Bool.false_ne_true
    rw [this]
    rfl

/-- `find?` by id commutes with an id-preserving row rewrite. -/
theorem findTask_map (g : Task → Task) (hg : ∀ r, (g r).id = r.id) (tid : Nat) :
    ∀ rows : List Task, findTask tid (rows.map g) = (findTask tid rows).map g
  | [] => rfl
  | r :: rows => by
      unfold findTask
      rw [List.map_cons]
      by_cases h : r.id = tid
      · rw [List.find?_cons_of_pos _ (by simp [hg, h]),
          List.find?_cons_of_pos _ (by simp [h])]
        rfl
      · rw [List.find?_cons_of_neg _ (by simp [hg, h]),
          List.find?_cons_of_neg _ (by simp [h])]
        exact findTask_map g hg tid rows

/-- With unique ids, a member row is exactly what `find?` by its id sees. -/
theorem findTask_of_mem : ∀ {rows : List Task} {t : Task}, t ∈ rows →
    (rows.map Task.id).Nodup → findTask t.id rows = some t := by
  intro rows
  induction rows with
  | nil => intro t ht; exact absurd ht (List.not_mem_nil t)
  | cons r rest ih =>
      intro t ht hnd
      rcases List.mem_cons.mp ht with rfl | htl
      · unfold findTask
        rw [List.find?_cons_of_pos _ (by simp)]
      · have hnd' := hnd
        rw [List.map_cons, List.nodup_cons] at hnd'
        have hne : r.id ≠ t.id := by
          intro he
          exact hnd'.1 (he ▸ List.mem_map_of_mem Task.id htl)
        unfold findTask
        rw [List.find?_cons_of_neg _ (by simp [hne])]
        exact ih htl hnd'.2

theorem findTask_eq_none {tid : Nat} : ∀ {rows : List Task},
    tid ∉ rows.map Task.id → findTask tid rows = none := by
  intro rows
  induction rows with
  | nil => intro _; rfl
  | cons r rest ih =>
      intro h
      rw [List.map_cons, List.mem_cons] at h
      push_neg at h
      unfold findTask
      rw [List.find?_cons_of_neg _ (by simp; exact fun he => h.1 he.symm)]
      exact ih h.2

theorem mem_unique_id {rows : List Task} {t u : Task} (ht : t ∈ rows)
    (hu : u ∈ rows) (hnd : (rows.map Task.id).Nodup) (hid : t.id = u.id) :
    t = u := by
  have h1 := findTask_of_mem ht hnd
  have h2 := findTask_of_mem hu hnd
  rw [hid, h2] at h1
  exact ((Option.some.injEq u t).mp h1).symm

/-- Rewriting rows whose id differs from every row leaves the store as is. -/
theorem updateById_not_mem {tid : Nat} {f : Task → Task} {rows : List Task}
    (h : tid ∉ rows.map Task.id) : updateById tid f rows = rows := by
  induction rows with
  | nil => rfl
  | cons r rest ih =>
      rw [List.map_cons, List.mem_cons] at h
      push_neg at h
      unfold updateById at ih ⊢
      rw [List.map_cons, if_neg (fun he => h.1 he.symm), ih h.2]

theorem findTask_some_id {tid : Nat} {rows : List Task} {v : Task}
    (h : findTask tid rows = some v) : v.id = tid := by
  have := List.find?_some h
  simpa using this

/-- `find?` at the rewritten id sees the rewrite of what it saw before. -/
theorem findTask_updateById_self (tid : Nat) (f : Task → Task)
    (hf : ∀ r, (f r).id = r.id) (rows : List Task) :
    findTask tid (updateById tid f rows) = (findTask tid rows).map f := by
  have hg : ∀ r : Task, ((fun x => if x.id = tid then f x else x) r).id = r.id := by
    intro r
    by_cases h : r.id = tid <;> simp [h, hf]
  unfold updateById
  rw [findTask_map _ hg tid rows]
  cases hv : findTask tid rows with
  | none => rfl
  | some v => simp [findTask_some_id hv]

/-- `find?` at any other id is untouched by the rewrite. -/
theorem findTask_updateById_other {tid tid' : Nat} (f : Task → Task)
    (hf : ∀ r, (f r).id = r.id) (hne : tid' ≠ tid) (rows : List Task) :
    findTask tid' (updateById tid f rows) = findTask tid' rows := by
  have hg : ∀ r : Task, ((fun x => if x.id = tid then f x else x) r).id = r.id := by
    intro r
    by_cases h : r.id = tid <;> simp [h, hf]
  unfold updateById
  rw [findTask_map _ hg tid' rows]
  cases hv : findTask tid' rows with
  | none => rfl
  | some v =>
      have : v.id ≠ tid := (findTask_some_id hv) ▸ hne
      simp [this]

/-- An id-preserving rewrite preserves the store's id column. -/
theorem updateById_map_id {tid : Nat} (f : Task → Task)
    (hf : ∀ r, (f r).id = r.id) (rows : List Task) :
    (updateById tid f rows).map Task.id = rows.map Task.id := by
  unfold updateById
  rw [List.map_map]
  refine List.map_congr_left ?_
  intro r _
  by_cases h : r.id = tid <;> simp [h, hf]

/-- One `fail_task` step on a present row, described field by field. -/
theorem failTask_step (now : ℚ) (errMsg : String) (maxAttempts : Nat)
    {rows : List Task} {t : Task} (ht : t ∈ rows)
    (hnd : (rows.map Task.id).Nodup) :
    findTask t.id (failTask now t.id errMsg maxAttempts rows) =
      some (if t.attempts ≥ maxAttempts then
              { t with
                status := TaskStatus.DEAD_LETTER,
                attempts := t.attempts + 1,
                error_message := some errMsg,
                execute_after := 0 }
            else
              { t with
                status := TaskStatus.PENDING,
                attempts := t.attempts + 1,
                error_message := some errMsg,
                execute_after := now + 2 ^ t.attempts * 5 }) ∧
    ((failTask now t.id errMsg maxAttempts rows).map Task.id).Nodup := by
  have heq : failTask now t.id errMsg maxAttempts rows =
      updateById t.id (failUpdate now errMsg maxAttempts t.attempts) rows := by
    unfold failTask
    rw [findTask_of_mem ht hnd]
  constructor
  · rw [heq, findTask_updateById_self t.id (failUpdate now errMsg maxAttempts t.attempts)
        (fun r => rfl) rows, findTask_of_mem ht hnd]
    by_cases hge : t.attempts ≥ maxAttempts <;> simp [failUpdate, hge]
  · rw [heq, updateById_map_id (failUpdate now errMsg maxAttempts t.attempts)
        (fun r => rfl) rows]
    exact hnd

/-! ### The claims -/

/-- C1 (code bug in `claim_task`): the SELECT and the UPDATE are separate
statements and the UPDATE carries no status guard, so two callers whose
SELECTs both run before either UPDATE commits both receive the single
eligible task — whereas the claim requires exactly one winner.  For
contrast, the atomic claim run twice sequentially serves exactly one
caller. -/
theorem claim1_double_claim :
    (twoCallerClaim 100 [demoTask 0 50 0]).1 =
        (some (demoTask 0 50 0), some (demoTask 0 50 0)) ∧
    (claimTask 100 [demoTask 0 50 0]).1 = some (demoTask 0 50 0) ∧
    (claimTask 100 (claimTask 100 [demoTask 0 50 0]).2).1 = none := by
  decide

/-- C2: `claim_task` selects, among rows with status `PENDING` and
`execute_after ≤ now`, a row with the lowest `priority`, ties broken by
oldest `created_at`, marks exactly that row `PROCESSING` and returns it;
in particular three tasks with priorities `[50, 10, 10]` created at times
`0 < 1 < 2` are claimed in the order `(10, t1), (10, t2), (50, t0)`. -/
theorem claim2_claim_order :
    (∀ (now : ℚ) (rows rows' : List Task) (r : Task),
        (rows.map Task.id).Nodup →
        claimTask now rows = (some r, rows') →
        r ∈ rows ∧ eligible now r = true ∧
          (∀ t ∈ rows, eligible now t = true → leRow r t) ∧
          rows' = claimMark r.id rows ∧
          findTask r.id rows' = some { r with status := TaskStatus.PROCESSING } ∧
          ∀ u ∈ rows, u.id ≠ r.id → findTask u.id rows' = findTask u.id rows) ∧
    ((claimTask 10 [demoTask 0 50 0, demoTask 1 10 1, demoTask 2 10 2]).1 =
        some (demoTask 1 10 1) ∧
      (claimTask 10 (claimTask 10 [demoTask 0 50 0, demoTask 1 10 1,
          demoTask 2 10 2]).2).1 = some (demoTask 2 10 2) ∧
      (claimTask 10 (claimTask 10 (claimTask 10 [demoTask 0 50 0,
          demoTask 1 10 1, demoTask 2 10 2]).2).2).1 = some (demoTask 0 50 0)) := by
  constructor
  · intro now rows rows' r hnd h
    have hsel : selectCandidate now rows = some r ∧ rows' = claimMark r.id rows := by
      unfold claimTask at h
      cases hs : selectCandidate now rows with
      | none => rw [hs] at h; exact absurd h (by simp)
      | some c =>
          rw [hs, Prod.mk.injEq] at h
          obtain ⟨h1, h2⟩ := h
          obtain rfl : c = r := Option.some.inj h1
          exact ⟨rfl, h2.symm⟩
    obtain ⟨hs, hrows'⟩ := hsel
    obtain ⟨hmem, hel, hmin⟩ := selectCandidate_spec hs
    refine ⟨hmem, hel, hmin, hrows', ?_, ?_⟩
    · rw [hrows']
      unfold claimMark
      rw [findTask_updateById_self r.id
          (fun x => { x with status := TaskStatus.PROCESSING }) (fun x => rfl) rows,
        findTask_of_mem hmem hnd]
      rfl
    · intro u hu hune
      rw [hrows']
      unfold claimMark
      exact findTask_updateById_other
        (fun x => { x with status := TaskStatus.PROCESSING }) (fun x => rfl) hune rows
  · decide

/-- Witness for C2's universally quantified part on a one-task store. -/
theorem claim2_claim_order_witness :
    demoTask 1 10 1 ∈ [demoTask 1 10 1] ∧ eligible 10 (demoTask 1 10 1) = true := by
  have h := claim2_claim_order.1 10 [demoTask 1 10 1]
      (claimMark 1 [demoTask 1 10 1]) (demoTask 1 10 1) (by decide) (by decide)
  exact ⟨h.1, h.2.1⟩

/-- C3: `fail_task` reads the current `attempts`; below `max_attempts` the
task returns to `PENDING` with `attempts` incremented and
`execute_after = now + 2^attempts · 5`, and the delay strictly increases
on the next failure; at or above `max_attempts` the task becomes
`DEAD_LETTER` with `execute_after` set to 0, and a further `fail_task`
keeps `execute_after` at 0 and the status `DEAD_LETTER`. -/
theorem claim3_fail_backoff (now now2 : ℚ) (rows : List Task) (t : Task)
    (errMsg errMsg2 : String) (maxAttempts : Nat)
    (ht : t ∈ rows) (hnd : (rows.map Task.id).Nodup) :
    (t.attempts < maxAttempts →
      findTask t.id (failTask now t.id errMsg maxAttempts rows) =
        some { t with
               status := TaskStatus.PENDING,
               attempts := t.attempts + 1,
               error_message := some errMsg,
               execute_after := now + 2 ^ t.attempts * 5 } ∧
      ((2 : ℚ) ^ t.attempts * 5 < 2 ^ (t.attempts + 1) * 5) ∧
      (t.attempts + 1 < maxAttempts →
        findTask t.id (failTask now2 t.id errMsg2 maxAttempts
            (failTask now t.id errMsg maxAttempts rows)) =
          some { t with
                 status := TaskStatus.PENDING,
                 attempts := t.attempts + 2,
                 error_message := some errMsg2,
                 execute_after := now2 + 2 ^ (t.attempts + 1) * 5 })) ∧
    (maxAttempts ≤ t.attempts →
      findTask t.id (failTask now t.id errMsg maxAttempts rows) =
        some { t with
               status := TaskStatus.DEAD_LETTER,
               attempts := t.attempts + 1,
               error_message := some errMsg,
               execute_after := 0 } ∧
      findTask t.id (failTask now2 t.id errMsg2 maxAttempts
          (failTask now t.id errMsg maxAttempts rows)) =
        some { t with
               status := TaskStatus.DEAD_LETTER,
               attempts := t.attempts + 2,
               error_message := some errMsg2,
               execute_after := 0 }) := by
  obtain ⟨h1, hnd1⟩ := failTask_step now errMsg maxAttempts ht hnd
  constructor
  · intro hlt
    have hnotge : ¬ t.attempts ≥ maxAttempts := not_le.mpr hlt
    rw [if_neg hnotge] at h1
    refine ⟨h1, ?_, ?_⟩
    · have h0 : (0:ℚ) < 2 ^ t.attempts := by positivity
      rw [pow_succ]
      nlinarith
    · intro hlt2
      have hmem1 : { t with
          status := TaskStatus.PENDING, attempts := t.attempts + 1,
          error_message := some errMsg,
          execute_after := now + 2 ^ t.attempts * 5 } ∈
          failTask now t.id errMsg maxAttempts rows :=
        List.mem_of_find?_eq_some h1
      have h2 := (failTask_step now2 errMsg2 maxAttempts hmem1 hnd1).1
      rw [if_neg (not_le.mpr hlt2)] at h2
      exact h2
  · intro hge
    rw [if_pos hge] at h1
    refine ⟨h1, ?_⟩
    have hmem1 : { t with
        status := TaskStatus.DEAD_LETTER, attempts := t.attempts + 1,
        error_message := some errMsg, execute_after := 0 } ∈
        failTask now t.id errMsg maxAttempts rows :=
      List.mem_of_find?_eq_some h1
    have h2 := (failTask_step now2 errMsg2 maxAttempts hmem1 hnd1).1
    rw [if_pos (le_trans hge (Nat.le_succ t.attempts))] at h2
    exact h2

/-- Witness for C3 on a fresh task (`attempts = 0`, `max_attempts = 3`). -/
theorem claim3_fail_backoff_witness :
    (demoTask 0 50 0).attempts < 3 ∧
    findTask (demoTask 0 50 0).id
        (failTask 100 (demoTask 0 50 0).id "e" 3 [demoTask 0 50 0]) =
      some { demoTask 0 50 0 with
             status := TaskStatus.PENDING,
             attempts := (demoTask 0 50 0).attempts + 1,
             error_message := some "e",
             execute_after := 100 + 2 ^ (demoTask 0 50 0).attempts * 5 } :=
  ⟨by decide,
    ((claim3_fail_backoff 100 200 [demoTask 0 50 0] (demoTask 0 50 0)
        "e" "e2" 3 (by decide) (by decide)).1 (by decide)).1⟩

/-- C4: for a claimed task present in the store, a capacity outcome —
`acquire_slot` returning no account, or a handler failure whose message
contains `"429"` or (case-insensitively) `"exhausted"` — returns the task
to `PENDING` with a future `execute_after` (`now + max(10, wait)` resp.
`now + 60`) and `attempts` unchanged (the returned record keeps every
other field of `t`, including `attempts`); any other handler failure goes
through `fail_task` (default `max_attempts = 3`) and increments
`attempts`. -/
theorem claim4_capacity_vs_attempts (now wait : ℚ) (rows : List Task)
    (t : Task) (msg : String) (ht : t ∈ rows)
    (hnd : (rows.map Task.id).Nodup) :
    (findTask t.id (processTask now t.id (Outcome.noAccount wait) rows) =
        some { t with
               status := TaskStatus.PENDING,
               execute_after := now + max 10 wait } ∧
      now < now + max 10 wait) ∧
    (isCapacityError msg = true →
      findTask t.id (processTask now t.id (Outcome.handlerFailure msg) rows) =
        some { t with status := TaskStatus.PENDING, execute_after := now + 60 } ∧
      now < now + 60) ∧
    (isCapacityError msg = false →
      processTask now t.id (Outcome.handlerFailure msg) rows =
        failTask now t.id msg 3 rows ∧
      (findTask t.id (processTask now t.id (Outcome.handlerFailure msg) rows)).map
          Task.attempts = some (t.attempts + 1)) := by
  have hself := findTask_of_mem ht hnd
  refine ⟨⟨?_, ?_⟩, ?_, ?_⟩
  · show findTask t.id (releaseTask now t.id (max 10 wait) rows) = _
    unfold releaseTask
    rw [findTask_updateById_self t.id
        (fun r =>
          { r with
            status := TaskStatus.PENDING,
            execute_after := now + max 10 wait })
        (fun r => rfl) rows, hself]
    rfl
  · have := le_max_left (10:ℚ) wait
    linarith
  · intro hcap
    constructor
    · show findTask t.id (if isCapacityError msg then releaseTask now t.id 60 rows
          else failTask now t.id msg 3 rows) = _
      rw [if_pos hcap]
      unfold releaseTask
      rw [findTask_updateById_self t.id
          (fun r =>
            { r with
              status := TaskStatus.PENDING,
              execute_after := now + 60 })
          (fun r => rfl) rows, hself]
      rfl
    · linarith
  · intro hcap
    have heq : processTask now t.id (Outcome.handlerFailure msg) rows =
        failTask now t.id msg 3 rows := by
      show (if isCapacityError msg then releaseTask now t.id 60 rows
          else failTask now t.id msg 3 rows) = _
      rw [hcap]
      simp
    refine ⟨heq, ?_⟩
    rw [heq]
    obtain ⟨h1, -⟩ := failTask_step now msg 3 ht hnd
    rw [h1]
    by_cases hge : t.attempts ≥ 3 <;> simp [hge]

/-- Witness for C4: a `"429"` failure releases without touching
`attempts`; a plain failure increments `attempts`. -/
theorem claim4_capacity_vs_attempts_witness :
    (findTask 0 (processTask 100 0 (Outcome.handlerFailure "Error: 429")
        [demoTask 0 50 0]) =
      some { demoTask 0 50 0 with
             status := TaskStatus.PENDING,
             execute_after := 100 + 60 }) ∧
    ((findTask 0 (processTask 100 0 (Outcome.handlerFailure "boom")
        [demoTask 0 50 0])).map Task.attempts = some 1) := by
  have h1 := (claim4_capacity_vs_attempts 100 3 [demoTask 0 50 0]
      (demoTask 0 50 0) "Error: 429" (by decide) (by decide)).2.1 (by decide)
  have h2 := (claim4_capacity_vs_attempts 100 3 [demoTask 0 50 0]
      (demoTask 0 50 0) "boom" (by decide) (by decide)).2.2 (by decide)
  exact ⟨h1.1, h2.2⟩

/-- C7 counterexample: invoked on a terminal row's own id, the unguarded
UPDATEs of the store move it out of its terminal status — `release_task`
moves a `COMPLETED` task to `PENDING`, and `complete_task` moves a
`DEAD_LETTER` task to `COMPLETED`. -/
theorem claim7_counterexample :
    doneTask.status = TaskStatus.COMPLETED ∧
    (findTask 0 (releaseTask 100 0 0 [doneTask])).map Task.status =
        some TaskStatus.PENDING ∧
    deadTask.status = TaskStatus.DEAD_LETTER ∧
    (findTask 1 (completeTask 1 "r" [deadTask])).map Task.status =
        some TaskStatus.COMPLETED := by
  decide

/-- C7 amended: `claim_task` and `reset_stuck_tasks` never move a task out
of `COMPLETED` or `DEAD_LETTER`; `complete_task`, `fail_task` and
`release_task` preserve a terminal row whenever they are invoked on a
different id — but they carry no status guard, so on the terminal row's
own id they can overwrite it (see the counterexample). -/
theorem claim7_terminal_statuses (now timeout delay : ℚ) (rows : List Task)
    (t : Task) (ht : t ∈ rows) (hnd : (rows.map Task.id).Nodup)
    (hterm : t.status = TaskStatus.COMPLETED ∨ t.status = TaskStatus.DEAD_LETTER) :
    findTask t.id (claimTask now rows).2 = some t ∧
    findTask t.id (resetStuckTasks now timeout rows) = some t ∧
    (∀ tid, tid ≠ t.id → ∀ result,
        findTask t.id (completeTask tid result rows) = some t) ∧
    (∀ tid, tid ≠ t.id → ∀ errMsg maxAttempts,
        findTask t.id (failTask now tid errMsg maxAttempts rows) = some t) ∧
    (∀ tid, tid ≠ t.id → findTask t.id (releaseTask now tid delay rows) = some t) := by
  have hself := findTask_of_mem ht hnd
  refine ⟨?_, ?_, ?_, ?_, ?_⟩
  · unfold claimTask
    cases hs : selectCandidate now rows with
    | none => exact hself
    | some c =>
        obtain ⟨hcmem, hcel, -⟩ := selectCandidate_spec hs
        have hcstatus : c.status = TaskStatus.PENDING := by
          simp only [eligible, Bool.and_eq_true, decide_eq_true_eq] at hcel
          exact hcel.1
        have hne : t.id ≠ c.id := by
          intro he
          have heq := mem_unique_id ht hcmem hnd he
          rcases hterm with h | h <;> rw [heq, hcstatus] at h <;>
            exact TaskStatus.noConfusion h
        show findTask t.id (claimMark c.id rows) = some t
        unfold claimMark
        rw [findTask_updateById_other
            (fun x => { x with status := TaskStatus.PROCESSING })
            (fun x => rfl) hne rows]
        exact hself
  · unfold resetStuckTasks
    rw [findTask_map
        (fun r =>
          if r.status = TaskStatus.PROCESSING ∧ r.created_at < now - timeout
          then { r with status := TaskStatus.PENDING, attempts := r.attempts + 1 }
          else r)
        (fun r => by
          by_cases h : r.status = TaskStatus.PROCESSING ∧ r.created_at < now - timeout <;>
            simp [h])
        t.id rows, hself]
    have hnp : ¬(t.status = TaskStatus.PROCESSING ∧ t.created_at < now - timeout) := by
      rintro ⟨h1, -⟩
      rcases hterm with h | h <;> rw [h] at h1 <;> exact TaskStatus.noConfusion h1
    simp [hnp]
  · intro tid hne result
    unfold completeTask
    rw [findTask_updateById_other
        (fun r => { r with status := TaskStatus.COMPLETED, result := some result })
        (fun r => rfl) (Ne.symm hne) rows]
    exact hself
  · intro tid hne errMsg maxAttempts
    unfold failTask
    cases hs : findTask tid rows with
    | none => exact hself
    | some row =>
        rw [findTask_updateById_other (failUpdate now errMsg maxAttempts row.attempts)
            (fun r => rfl) (Ne.symm hne) rows]
        exact hself
  · intro tid hne
    unfold releaseTask
    rw [findTask_updateById_other
        (fun r => { r with status := TaskStatus.PENDING, execute_after := now + delay })
        (fun r => rfl) (Ne.symm hne) rows]
    exact hself

/-- Witness for C7's amended theorem on a two-row store. -/
theorem claim7_terminal_statuses_witness :
    doneTask.status = TaskStatus.COMPLETED ∧
    findTask doneTask.id (claimTask 100 [doneTask, demoTask 2 10 1]).2 = some doneTask ∧
    findTask doneTask.id (releaseTask 100 2 5 [doneTask, demoTask 2 10 1]) =
      some doneTask := by
  have h := claim7_terminal_statuses 100 300 5 [doneTask, demoTask 2 10 1] doneTask
      (by decide) (by decide) (Or.inl (by decide))
  exact ⟨by decide, h.1, h.2.2.2.2 2 (by decide)⟩

/-- C10: `complete_task`, `fail_task` and `release_task` on an id absent
from the store leave the store unchanged and return normally (they are
total functions). -/
theorem claim10_missing_id_noop (now delay : ℚ) (result errMsg : String)
    (maxAttempts : Nat) (tid : Nat) (rows : List Task)
    (h : tid ∉ rows.map Task.id) :
    completeTask tid result rows = rows ∧
    failTask now tid errMsg maxAttempts rows = rows ∧
    releaseTask now tid delay rows = rows := by
  refine ⟨updateById_not_mem h, ?_, updateById_not_mem h⟩
  unfold failTask
  rw [findTask_eq_none h]

/-- Witness for C10: id 5 is not in the singleton store. -/
theorem claim10_missing_id_noop_witness :
    (5 ∉ [demoTask 0 50 0].map Task.id) ∧
    completeTask 5 "r" [demoTask 0 50 0] = [demoTask 0 50 0] ∧
    failTask 7 5 "e" 3 [demoTask 0 50 0] = [demoTask 0 50 0] ∧
    releaseTask 7 5 1 [demoTask 0 50 0] = [demoTask 0 50 0] := by
  have h : (5 ∉ [demoTask 0 50 0].map Task.id) := by decide
  obtain ⟨h1, h2, h3⟩ := claim10_missing_id_noop 7 1 "r" "e" 3 5 [demoTask 0 50 0] h
  exact ⟨h, h1, h2, h3⟩

/-! ### Helper lemmas about the rate limiter -/

theorem lookupD_tierZeros (tv : String) :
    lookupD (tierValues.map (fun t => (t, (0:Nat)))) tv 0 = 0 := by
  unfold lookupD
  cases h : (tierValues.map (fun t => (t, (0:Nat)))).find?
      (fun p => decide (p.1 = tv)) with
  | none => rfl
  | some p =>
      obtain ⟨t, -, ht⟩ := List.mem_map.mp (List.mem_of_find?_eq_some h)
      rw [← ht]

theorem accState_resetState (today : String) (accountIds : List Nat) (a : Nat) :
    accState (resetState today accountIds) a = freshAccount := by
  unfold accState resetState
  cases h : (accountIds.map (fun x => (x, freshAccount))).find?
      (fun p => decide (p.1 = a)) with
  | none => rfl
  | some p =>
      obtain ⟨x, -, hx⟩ := List.mem_map.mp (List.mem_of_find?_eq_some h)
      rw [← hx]

theorem dailyUsage_resetState (today : String) (accountIds : List Nat)
    (tv : String) (a : Nat) :
    dailyUsage (resetState today accountIds) tv a = 0 := by
  unfold dailyUsage
  rw [accState_resetState]
  exact lookupD_tierZeros tv

theorem pyInt_eq_floor {q : ℚ} (h : 0 ≤ q) : pyInt q = ⌊q⌋ := by
  unfold pyInt
  rw [Rat.floor_def]
  exact Int.tdiv_eq_ediv (Rat.num_nonneg.mpr h) (Int.natCast_nonneg q.den)

theorem modelLimits_daily_cases (tier : String) :
    (modelLimits tier).daily = -1 ∨ 0 < (modelLimits tier).daily := by
  unfold modelLimits
  split_ifs <;> decide

/-- Over the configured `MODEL_LIMITS` table (whose daily quotas are `-1`
or positive), the source's in-loop gate test coincides with the gates as
the spec words them. -/
theorem passesGates_eq_claim (st : LimiterState) (tier mpref : String)
    (safety now : ℚ) (hs : 0 < safety) (a : Nat) :
    passesGates st tier (modelLimits mpref) safety now a =
      (dailyGateClaim st tier (modelLimits mpref) safety a &&
        rateGateClaim st tier (modelLimits mpref) safety now a) := by
  rcases modelLimits_daily_cases mpref with h | h
  · have hne : ¬ (modelLimits mpref).daily > 0 := by rw [h]; decide
    unfold passesGates dailyGateClaim rateGateClaim
    rw [if_neg hne, if_pos h]
  · have hne : ¬ (modelLimits mpref).daily = -1 := by omega
    unfold passesGates dailyGateClaim rateGateClaim
    rw [if_pos h, if_neg hne]
    have hd : (0:ℚ) < ((modelLimits mpref).daily : ℚ) := by exact_mod_cast h
    rw [pyInt_eq_floor (le_of_lt (mul_pos hd hs))]

theorem preferredOrder_sorted (st : LimiterState) (tier : String)
    (accountIds : List Nat) :
    List.Sorted (fun a b => lastReq st tier a ≤ lastReq st tier b)
      (preferredOrder st tier accountIds) := by
  haveI htot : IsTotal Nat (fun a b => lastReq st tier a ≤ lastReq st tier b) :=
    ⟨fun a b => le_total _ _⟩
  haveI htr : IsTrans Nat (fun a b => lastReq st tier a ≤ lastReq st tier b) :=
    ⟨fun a b c hab hbc => le_trans hab hbc⟩
  exact List.sorted_insertionSort _ accountIds

theorem preferredOrder_perm (st : LimiterState) (tier : String)
    (accountIds : List Nat) :
    (preferredOrder st tier accountIds).Perm accountIds :=
  List.perm_insertionSort _ accountIds

theorem minWaitFold_from_some :
    ∀ (st : LimiterState) (tier : String) (limits : Limits) (safety now : ℚ)
      (l : List Nat) (w r : ℚ),
      l.foldl (minWaitStep st tier limits safety now) (some w) = some r →
        (r = w ∨ ∃ a ∈ l, dailyExhausted st tier limits a = false ∧
            r = waitOf st tier limits safety now a) ∧
        r ≤ w ∧
        ∀ a ∈ l, dailyExhausted st tier limits a = false →
          r ≤ waitOf st tier limits safety now a := by
  intro st tier limits safety now l
  induction l with
  | nil =>
      intro w r h
      simp only [List.foldl_nil, Option.some.injEq] at h
      subst h
      exact ⟨Or.inl rfl, le_refl _, by simp⟩
  | cons x l ih =>
      intro w r h
      rw [List.foldl_cons] at h
      by_cases hex : dailyExhausted st tier limits x = true
      · rw [show minWaitStep st tier limits safety now (some w) x = some w by
            simp [minWaitStep, hex]] at h
        obtain ⟨hmem, hle, hall⟩ := ih w r h
        refine ⟨?_, hle, ?_⟩
        · rcases hmem with h1 | ⟨a, ha, h2⟩
          · exact Or.inl h1
          · exact Or.inr ⟨a, List.mem_cons_of_mem _ ha, h2⟩
        · intro a ha hfa
          rcases List.mem_cons.mp ha with rfl | hal
          · rw [hfa] at hex
            exact absurd hex (by simp)
          · exact hall a hal hfa
      · have hex' : dailyExhausted st tier limits x = false := by simpa using hex
        rw [show minWaitStep st tier limits safety now (some w) x =
            some (min w (waitOf st tier limits safety now x)) by
            simp [minWaitStep, hex']] at h
        obtain ⟨hmem, hle, hall⟩ := ih _ r h
        have hlw : r ≤ w := le_trans hle (min_le_left _ _)
        have hlx : r ≤ waitOf st tier limits safety now x :=
          le_trans hle (min_le_right _ _)
        refine ⟨?_, hlw, ?_⟩
        · rcases hmem with h1 | ⟨a, ha, h2⟩
          · rcases min_cases w (waitOf st tier limits safety now x) with
              ⟨hmin, -⟩ | ⟨hmin, -⟩
            · exact Or.inl (h1.trans hmin)
            · exact Or.inr ⟨x, List.mem_cons_self _ _, hex', h1.trans hmin⟩
          · exact Or.inr ⟨a, List.mem_cons_of_mem _ ha, h2⟩
        · intro a ha hfa
          rcases List.mem_cons.mp ha with rfl | hal
          · exact hlx
          · exact hall a hal hfa

theorem minWaitFold_from_some_isSome :
    ∀ (st : LimiterState) (tier : String) (limits : Limits) (safety now : ℚ)
      (l : List Nat) (w : ℚ),
      ∃ r, l.foldl (minWaitStep st tier limits safety now) (some w) = some r := by
  intro st tier limits safety now l
  induction l with
  | nil => intro w; exact ⟨w, rfl⟩
  | cons x l ih =>
      intro w
      rw [List.foldl_cons]
      by_cases hex : dailyExhausted st tier limits x = true
      · rw [show minWaitStep st tier limits safety now (some w) x = some w by
            simp [minWaitStep, hex]]
        exact ih w
      · have hex' : dailyExhausted st tier limits x = false := by simpa using hex
        rw [show minWaitStep st tier limits safety now (some w) x =
            some (min w (waitOf st tier limits safety now x)) by
            simp [minWaitStep, hex']]
        exact ih _

/-- `min_wait` stays at infinity exactly when every account is skipped as
daily-exhausted. -/
theorem minWaitFold_eq_none_iff (st : LimiterState) (tier : String)
    (limits : Limits) (safety now : ℚ) :
    ∀ l : List Nat,
      minWaitFold st tier limits safety now l = none ↔
        ∀ a ∈ l, dailyExhausted st tier limits a = true := by
  intro l
  unfold minWaitFold
  induction l with
  | nil => simp
  | cons x l ih =>
      rw [List.foldl_cons]
      by_cases hex : dailyExhausted st tier limits x = true
      · rw [show minWaitStep st tier limits safety now none x = none by
            simp [minWaitStep, hex]]
        rw [ih]
        constructor
        · intro h a ha
          rcases List.mem_cons.mp ha with rfl | hal
          · exact hex
          · exact h a hal
        · intro h a ha
          exact h a (List.mem_cons_of_mem _ ha)
      · have hex' : dailyExhausted st tier limits x = false := by simpa using hex
        rw [show minWaitStep st tier limits safety now none x =
            some (waitOf st tier limits safety now x) by
            simp [minWaitStep, hex']]
        obtain ⟨r, hr⟩ := minWaitFold_from_some_isSome st tier limits safety now l _
        rw [hr]
        constructor
        · intro h
          exact absurd h (by simp)
        · intro h
          rw [h x (List.mem_cons_self _ _)] at hex'
          exact absurd hex' (by simp)

/-- When some account is not daily-exhausted, the `min_wait` loop computes
the minimum of `waitOf` over the non-exhausted accounts. -/
theorem minWaitFold_spec (st : LimiterState) (tier : String) (limits : Limits)
    (safety now : ℚ) :
    ∀ l : List Nat, (∃ b ∈ l, dailyExhausted st tier limits b = false) →
      ∃ r, minWaitFold st tier limits safety now l = some r ∧
        (∃ a ∈ l, dailyExhausted st tier limits a = false ∧
            r = waitOf st tier limits safety now a) ∧
        ∀ a ∈ l, dailyExhausted st tier limits a = false →
          r ≤ waitOf st tier limits safety now a := by
  intro l
  unfold minWaitFold
  induction l with
  | nil =>
      rintro ⟨b, hb, -⟩
      exact absurd hb (List.not_mem_nil b)
  | cons x l ih =>
      rintro ⟨b, hb, hbf⟩
      rw [List.foldl_cons]
      by_cases hex : dailyExhausted st tier limits x = true
      · rw [show minWaitStep st tier limits safety now none x = none by
            simp [minWaitStep, hex]]
        have hbl : b ∈ l := by
          rcases List.mem_cons.mp hb with rfl | hal
          · rw [hbf] at hex
            exact absurd hex (by simp)
          · exact hal
        obtain ⟨r, hr, hexa, hall⟩ := ih ⟨b, hbl, hbf⟩
        refine ⟨r, hr, ?_, ?_⟩
        · obtain ⟨a, ha, h1, h2⟩ := hexa
          exact ⟨a, List.mem_cons_of_mem _ ha, h1, h2⟩
        · intro a ha hfa
          rcases List.mem_cons.mp ha with rfl | hal
          · rw [hfa] at hex
            exact absurd hex (by simp)
          · exact hall a hal hfa
      · have hex' : dailyExhausted st tier limits x = false := by simpa using hex
        rw [show minWaitStep st tier limits safety now none x =
            some (waitOf st tier limits safety now x) by
            simp [minWaitStep, hex']]
        obtain ⟨r, hr⟩ := minWaitFold_from_some_isSome st tier limits safety now l _
        obtain ⟨hmem, hle, hall⟩ :=
          minWaitFold_from_some st tier limits safety now l _ r hr
        refine ⟨r, hr, ?_, ?_⟩
        · rcases hmem with h1 | ⟨a, ha, h2, h3⟩
          · exact ⟨x, List.mem_cons_self _ _, hex', h1⟩
          · exact ⟨a, List.mem_cons_of_mem _ ha, h2, h3⟩
        · intro a ha hfa
          rcases List.mem_cons.mp ha with rfl | hal
          · exact hle
          · exact hall a hal hfa

/-- C5: when the persisted state is dated differently from today, the
`_load_state` performed at the start of `acquire_slot` replaces it with
the freshly reset state — whose daily counters are all zero and whose
date is today — so the gates are evaluated over the reset state. -/
theorem claim5_quota_rollover (stored : LimiterState) (today : String)
    (accountIds : List Nat) (safety : ℚ) (limits : Limits) (tier : String)
    (now : ℚ) (hdate : stored.date ≠ today) :
    (loadState (some stored) today accountIds).1 = resetState today accountIds ∧
    (∀ a, ∀ tv, dailyUsage (resetState today accountIds) tv a = 0) ∧
    (resetState today accountIds).date = today ∧
    acquireSlot (some stored) today accountIds safety limits tier now =
      (acquireFromState (resetState today accountIds) accountIds safety limits
          tier now,
        some (resetState today accountIds)) := by
  have hload : loadState (some stored) today accountIds =
      (resetState today accountIds, some (resetState today accountIds)) := by
    simp [loadState, hdate]
  refine ⟨?_, ?_, rfl, ?_⟩
  · rw [hload]
  · intro a tv
    exact dailyUsage_resetState today accountIds tv a
  · unfold acquireSlot
    rw [hload]

/-- Witness for C5: a state dated 2025-01-01 with usage 5 on account 1,
loaded on 2025-01-02. -/
theorem claim5_quota_rollover_witness :
    staleState.date ≠ "2025-01-02" ∧
    dailyUsage staleState "pro-3" 1 = 5 ∧
    (loadState (some staleState) "2025-01-02" [1, 2]).1 =
      resetState "2025-01-02" [1, 2] ∧
    dailyUsage (resetState "2025-01-02" [1, 2]) "pro-3" 1 = 0 := by
  have h := claim5_quota_rollover staleState "2025-01-02" [1, 2] (9/10)
      { daily := 100, rpm := 30 } "pro-3" 100 (by decide)
  exact ⟨by decide, by decide, h.1, h.2.1 1 "pro-3"⟩

/-- C6: `acquire_slot` examines the accounts in ascending order of the
tier's `last_request_time` (a stable ascending sort, i.e. a permutation
of the account list) and returns the first account passing both the
spec's daily gate (`-1` always passes; otherwise pass while
`daily_usage < ⌊daily_quota · safety⌋`) and the spec's rate gate (pass
when `now - last_request_time ≥ 60/(rpm · safety)`); it returns `none`
exactly when every account fails a gate.  Scenario: with daily quota 2,
`safety_factor = 1` and two recorded usages on account 1, account 1 is
skipped by the daily gate and account 2 is returned. -/
theorem claim6_acquire_slot :
    (∀ (file : Option LimiterState) (today : String) (accountIds : List Nat)
        (safety : ℚ) (modelPref : String) (now : ℚ)
        (st : LimiterState) (tier : String) (limits : Limits),
      st = (loadState file today accountIds).1 →
      tier = getTier modelPref →
      limits = modelLimits tier →
      0 < safety →
      List.Sorted (fun a b => lastReq st tier a ≤ lastReq st tier b)
          (preferredOrder st tier accountIds) ∧
        (preferredOrder st tier accountIds).Perm accountIds ∧
        (acquireSlotPref file today accountIds safety modelPref now).1 =
          (preferredOrder st tier accountIds).find? (fun a =>
            dailyGateClaim st tier limits safety a &&
              rateGateClaim st tier limits safety now a) ∧
        ((acquireSlotPref file today accountIds safety modelPref now).1 = none ↔
          ∀ a ∈ accountIds, dailyGateClaim st tier limits safety a = false ∨
            rateGateClaim st tier limits safety now a = false)) ∧
    (dailyGateClaim
        (recordUsage (recordUsage (resetState "d" [1, 2]) 10 1 "flash-lite")
          20 1 "flash-lite") "flash-lite" { daily := 2, rpm := 30 } 1 1 = false ∧
      (acquireSlot
          (some (recordUsage (recordUsage (resetState "d" [1, 2]) 10 1 "flash-lite")
            20 1 "flash-lite")) "d" [1, 2] 1 { daily := 2, rpm := 30 }
          "flash-lite" 1000).1 = some 2) := by
  constructor
  · intro file today accountIds safety modelPref now st tier limits hst htier hlim hs
    subst hst htier hlim
    have hacq : (acquireSlotPref file today accountIds safety modelPref now).1 =
        acquireFromState (loadState file today accountIds).1 accountIds safety
          (modelLimits (getTier modelPref)) (getTier modelPref) now := rfl
    have hfun : passesGates (loadState file today accountIds).1 (getTier modelPref)
        (modelLimits (getTier modelPref)) safety now =
        fun a => dailyGateClaim (loadState file today accountIds).1
            (getTier modelPref) (modelLimits (getTier modelPref)) safety a &&
          rateGateClaim (loadState file today accountIds).1 (getTier modelPref)
            (modelLimits (getTier modelPref)) safety now a := by
      funext a
      exact passesGates_eq_claim _ _ _ safety now hs a
    have hperm := preferredOrder_perm (loadState file today accountIds).1
        (getTier modelPref) accountIds
    refine ⟨preferredOrder_sorted _ _ _, hperm, ?_, ?_⟩
    · rw [hacq]
      unfold acquireFromState
      rw [hfun]
    · rw [hacq]
      unfold acquireFromState
      rw [hfun, List.find?_eq_none]
      constructor
      · intro h a ha
        have h2 := h a (hperm.mem_iff.mpr ha)
        by_cases hd : dailyGateClaim (loadState file today accountIds).1
            (getTier modelPref) (modelLimits (getTier modelPref)) safety a = true
        · right
          by_cases hr : rateGateClaim (loadState file today accountIds).1
              (getTier modelPref) (modelLimits (getTier modelPref)) safety now a = true
          · exact absurd (by simp [hd, hr]) h2
          · simpa using hr
        · left
          simpa using hd
      · intro h x hx
        rcases h x (hperm.mem_iff.mp hx) with hd | hr
        · simp [hd]
        · simp [hr]
  · constructor
    · with_unfolding_all decide
    · with_unfolding_all decide

/-- Witness for C6's universally quantified part with the real
`MODEL_LIMITS` table. -/
theorem claim6_acquire_slot_witness :
    (0:ℚ) < 9/10 ∧
    (acquireSlotPref none "d" [1, 2] (9/10) "pro-3" 100).1 =
      (preferredOrder (loadState none "d" [1, 2]).1 (getTier "pro-3") [1, 2]).find?
        (fun a =>
          dailyGateClaim (loadState none "d" [1, 2]).1 (getTier "pro-3")
              (modelLimits (getTier "pro-3")) (9/10) a &&
            rateGateClaim (loadState none "d" [1, 2]).1 (getTier "pro-3")
              (modelLimits (getTier "pro-3")) (9/10) 100 a) := by
  refine ⟨by norm_num, ?_⟩
  exact (claim6_acquire_slot.1 none "d" [1, 2] (9/10) "pro-3" 100
      (loadState none "d" [1, 2]).1 (getTier "pro-3")
      (modelLimits (getTier "pro-3")) rfl rfl rfl (by norm_num)).2.2.1

/-- C8: `get_wait_time` returns 0 when `acquire_slot` would find an
account; otherwise it returns the minimum, over accounts whose daily
quota is not already exhausted (against the raw daily limit), of
`max 0 (min_gap - (now - last_request_time))`, and the fallback 3600 when
every account is daily-exhausted. -/
theorem claim8_get_wait_time (file : Option LimiterState) (today : String)
    (accountIds : List Nat) (safety : ℚ) (limits : Limits) (tier : String)
    (now : ℚ) (st : LimiterState)
    (hst : st = (loadState file today accountIds).1) :
    ((acquireFromState st accountIds safety limits tier now).isSome = true →
      (getWaitTime file today accountIds safety limits tier now).1 = 0) ∧
    (acquireFromState st accountIds safety limits tier now = none →
      ((∀ a ∈ accountIds, dailyExhausted st tier limits a = true) →
        (getWaitTime file today accountIds safety limits tier now).1 = 3600) ∧
      ((∃ b ∈ accountIds, dailyExhausted st tier limits b = false) →
        (∃ a ∈ accountIds, dailyExhausted st tier limits a = false ∧
            (getWaitTime file today accountIds safety limits tier now).1 =
              waitOf st tier limits safety now a) ∧
        ∀ a ∈ accountIds, dailyExhausted st tier limits a = false →
          (getWaitTime file today accountIds safety limits tier now).1 ≤
            waitOf st tier limits safety now a)) := by
  subst hst
  constructor
  · intro hsome
    unfold getWaitTime
    rw [if_pos hsome]
  · intro hnone
    have hcond : ¬ (acquireFromState (loadState file today accountIds).1 accountIds
        safety limits tier now).isSome = true := by
      rw [hnone]
      simp
    constructor
    · intro hall
      unfold getWaitTime
      rw [if_neg hcond]
      have hfold := (minWaitFold_eq_none_iff (loadState file today accountIds).1
          tier limits safety now accountIds).mpr hall
      rw [hfold]
    · intro hex
      obtain ⟨r, hr, hexa, hall⟩ := minWaitFold_spec (loadState file today accountIds).1
          tier limits safety now accountIds hex
      have hval : (getWaitTime file today accountIds safety limits tier now).1 = r := by
        unfold getWaitTime
        rw [if_neg hcond, hr]
      constructor
      · obtain ⟨a, ha, h1, h2⟩ := hexa
        exact ⟨a, ha, h1, by rw [hval, h2]⟩
      · intro a ha hfa
        rw [hval]
        exact hall a ha hfa

/-- Witness for C8 on `waitDemoState`: account 1 is daily-exhausted,
account 2 is rate-blocked, so no slot is available and the reported wait
is bounded by account 2's remaining gap. -/
theorem claim8_get_wait_time_witness :
    dailyExhausted waitDemoState "flash-lite" { daily := 1, rpm := 1 } 2 = false ∧
    (getWaitTime (some waitDemoState) "d" [1, 2] 1 { daily := 1, rpm := 1 }
        "flash-lite" 100).1 ≤
      waitOf waitDemoState "flash-lite" { daily := 1, rpm := 1 } 1 100 2 := by
  have h := (claim8_get_wait_time (some waitDemoState) "d" [1, 2] 1
      { daily := 1, rpm := 1 } "flash-lite" 100 waitDemoState (by decide)).2
      (by with_unfolding_all decide)
  exact ⟨by decide, (h.2 ⟨2, by decide, by decide⟩).2 2 (by decide) (by decide)⟩

/-- C9 counterexample: on day rollover the "read-only" reports rewrite the
persisted state file — `get_remaining_quota` and `get_stats` on a
yesterday-dated state with non-zero usage persist a reset state instead
of leaving the file as it was. -/
theorem claim9_counterexample :
    dailyUsage staleState "pro-3" 1 = 5 ∧
    (getRemainingQuota (some staleState) "2025-01-02" [1, 2] "pro-3").2 ≠
        some staleState ∧
    (getStats (some staleState) "2025-01-02" [1, 2]).2 ≠ some staleState := by
  have hcond : ¬ staleState.date = "2025-01-02" := by decide
  refine ⟨by decide, ?_, ?_⟩
  · have h2 : (getRemainingQuota (some staleState) "2025-01-02" [1, 2] "pro-3").2 =
        some (resetState "2025-01-02" [1, 2]) := by
      simp [getRemainingQuota, loadState, hcond]
    rw [h2]
    decide
  · have h2 : (getStats (some staleState) "2025-01-02" [1, 2]).2 =
        some (resetState "2025-01-02" [1, 2]) := by
      simp [getStats, loadState, hcond]
    rw [h2]
    decide

/-- C9 amended: whenever the stored date equals today, `get_remaining_quota`
and `get_stats` have no effect on the persisted state (they only re-read
it); on day rollover the `_load_state` they perform resets and rewrites
the state file (see the counterexample). -/
theorem claim9_readonly_reports (stored : LimiterState) (today : String)
    (accountIds : List Nat) (modelPref : String)
    (hdate : stored.date = today) :
    (getRemainingQuota (some stored) today accountIds modelPref).2 = some stored ∧
    (getStats (some stored) today accountIds).2 = some stored := by
  constructor
  · simp [getRemainingQuota, loadState, hdate]
  · simp [getStats, loadState, hdate]

/-- Witness for C9's amended theorem: a state dated today is untouched. -/
theorem claim9_readonly_reports_witness :
    (getRemainingQuota (some waitDemoState) "d" [1, 2] "pro-3").2 =
        some waitDemoState ∧
    (getStats (some waitDemoState) "d" [1, 2]).2 = some waitDemoState :=
  claim9_readonly_reports waitDemoState "d" [1, 2] "pro-3" (by decide)

end GeminiDaemon
